import Mathlib

/-!
Verification development for the kyupi-kyupi-backend matching core.

The Go source is shallowly embedded: identities are their canonical string
form (the spec treats identities as opaque, totally ordered, string-serializable
tokens; `uuid.String()` is injective, so distinct identities have distinct
strings).  Database tables become lists inside an explicit `DBState`, and each
SQL statement of the repository layer becomes one atomic Lean function on that
state.  Match ids, generated by the database in the source, are modelled by a
fresh-counter `Nat`.
-/

/-- Identities are modelled by their canonical string representation
(`uuid.UUID.String()` in the source). -/
abbrev Identity := String

/-- Status values accepted by the like endpoint
(`binding:"required,oneof=like pass"` in `CreateLikeRequest`). -/
inductive LikeStatus where
  | like
  | pass
deriving DecidableEq, Repr

/-- Row of the `likes` table (`models.Like`): one user's decision toward a
target user.  Timestamps are omitted; no claim mentions them. -/
structure Like where
  userID : Identity
  targetUserID : Identity
  status : LikeStatus
deriving DecidableEq, Repr

/-- Row of the `matches` table (`models.Match`).  The id is a fresh counter
standing in for the database-generated uuid. -/
structure MatchRow where
  id : Nat
  user1ID : Identity
  user2ID : Identity
deriving DecidableEq, Repr

/-- Document of the `messages` Mongo collection (`models.Message`). -/
structure Message where
  matchID : Nat
  senderID : Identity
  receiverID : Identity
  content : String
deriving DecidableEq, Repr

/-- Combined persistent state of the backing stores: the `likes` and `matches`
Postgres tables, the `messages` Mongo collection, and the fresh-id counter for
match rows. -/
structure DBState where
  likes : List Like
  matchRows : List MatchRow
  messages : List Message
  nextMatchID : Nat
deriving DecidableEq, Repr

/-- Empty database. -/
def emptyDB : DBState := ⟨[], [], [], 0⟩

/-- Uniqueness predicate of the `likes_user_id_target_user_id_key` constraint:
a row for the exact ordered pair `(u, t)` is present (any status). -/
def hasLikePair (s : DBState) (u t : Identity) : Bool :=
  s.likes.any fun l => l.userID == u && l.targetUserID == t

/-- Presence of a like row `(u, t)` with `status = 'like'`. -/
def hasLikeLike (s : DBState) (u t : Identity) : Bool :=
  s.likes.any fun l => l.userID == u && l.targetUserID == t && l.status == LikeStatus.like

/-- Result of `LikeRepo.Create`: either the insert succeeded or it hit the
unique constraint on `(user_id, target_user_id)` (`ErrLikeAlreadyExists`). -/
inductive LikeCreateResult where
  | ok
  | alreadyExists
deriving DecidableEq, Repr

/-- Embeds `LikeRepo.Create`: `INSERT INTO likes (user_id, target_user_id,
status)`, with the duplicate-key error on the ordered pair mapped to
`alreadyExists`. -/
def likeRepoCreate (s : DBState) (l : Like) : LikeCreateResult × DBState :=
  if hasLikePair s l.userID l.targetUserID then
    (.alreadyExists, s)
  else
    (.ok, { s with likes := s.likes ++ [l] })

/-- Embeds `LikeRepo.CheckMutualLike(userID, targetUserID)`: the query binds
`$1 = targetUserID`, `$2 = userID`, so it reports whether `targetUserID` has a
`'like'` row toward `userID`. -/
def checkMutualLike (s : DBState) (userID targetUserID : Identity) : Bool :=
  s.likes.any fun l =>
    l.userID == targetUserID && l.targetUserID == userID && l.status == LikeStatus.like

/-- Lexicographic comparison of character lists.  Go compares strings byte by
byte; on UTF-8 encodings byte order and codepoint order agree, so the
codepoint-wise comparison below is Go's string `<`. -/
def strLtChars : List Char → List Char → Bool
  | [], [] => false
  | [], _ :: _ => true
  | _ :: _, [] => false
  | c :: cs, d :: ds => if c == d then strLtChars cs ds else decide (c.toNat < d.toNat)

/-- Go's `<` operator on strings. -/
def strLt (a b : String) : Bool :=
  strLtChars a.data b.data

/-- Canonical ordering performed inline by `MatchRepo.Create` and
`MatchRepo.Exists`: swap the two identities when
`user1ID.String() > user2ID.String()` (that is, when the second compares
strictly below the first). -/
def canonPair (a b : Identity) : Identity × Identity :=
  if strLt b a then (b, a) else (a, b)

/-- Number of rows of the `matches` table carrying the canonical key of the
pair `(a, b)`. -/
def countPair (s : DBState) (a b : Identity) : Nat :=
  s.matchRows.countP fun m =>
    m.user1ID == (canonPair a b).1 && m.user2ID == (canonPair a b).2

/-- Result of `MatchRepo.Create`: on success the caller receives the inserted
row; on the unique-constraint violation it receives only `ErrMatchAlreadyExists`
(the pre-existing row is not fetched). -/
inductive MatchCreateResult where
  | ok (m : MatchRow)
  | alreadyExists
deriving DecidableEq, Repr

/-- Match payload a caller of `MatchRepo.Create` observes: the inserted row on
success, nothing on the duplicate-key path. -/
def MatchCreateResult.observed : MatchCreateResult → Option MatchRow
  | .ok m => some m
  | .alreadyExists => none

/-- Embeds `MatchRepo.Exists`: normalize the order, then `SELECT EXISTS(...)`
on the canonical key. -/
def matchRepoExistsPair (s : DBState) (user1ID user2ID : Identity) : Bool :=
  let c := canonPair user1ID user2ID
  s.matchRows.any fun m => m.user1ID == c.1 && m.user2ID == c.2

/-- Embeds `MatchRepo.Create`: normalize the order, `INSERT INTO matches`, and
map the duplicate-key error on `(user1_id, user2_id)` to `alreadyExists`.  The
insert and its constraint check are one atomic statement; a row with the
canonical key being present is exactly the condition of the unique
constraint. -/
def matchRepoCreate (s : DBState) (user1ID user2ID : Identity) : MatchCreateResult × DBState :=
  let c := canonPair user1ID user2ID
  if matchRepoExistsPair s user1ID user2ID then
    (.alreadyExists, s)
  else
    let row : MatchRow := ⟨s.nextMatchID, c.1, c.2⟩
    (.ok row, { s with matchRows := s.matchRows ++ [row], nextMatchID := s.nextMatchID + 1 })

/-- Embeds `MatchRepo.GetByUserID`: all match rows where the user appears on
either side. -/
def matchRepoGetByUserID (s : DBState) (userID : Identity) : List MatchRow :=
  s.matchRows.filter fun m => m.user1ID == userID || m.user2ID == userID

/-- Embeds `MessageRepo.GetByMatchID`: all message documents filed under the
given match id. -/
def messageRepoGetByMatchID (s : DBState) (matchID : Nat) : List Message :=
  s.messages.filter fun m => m.matchID == matchID

/-- Outcome the like endpoint reports to its caller (`LikeHandler.CreateLike`).
`created matched m` is the 201 response carrying `matched` and the optional
match payload; `invalidSelf` is the 400 for `userID == targetUserID`;
`conflict` is the 409 for `ErrLikeAlreadyExists`. -/
inductive CreateLikeOutcome where
  | invalidSelf
  | conflict
  | created (matched : Bool) (m : Option MatchRow)
deriving DecidableEq, Repr

/-- Embeds `LikeHandler.CreateLike` (the authenticated, well-formed-request
path).  `mutualCheckFails` models a transient storage error of the
`CheckMutualLike` query: on that path the handler logs the error and still
answers 201 with the initial `response` value (`Matched: false`, no match).
All other storage calls are failure-free. -/
def createLike (s : DBState) (userID targetUserID : Identity) (status : LikeStatus)
    (mutualCheckFails : Bool) : CreateLikeOutcome × DBState :=
  if userID == targetUserID then
    (.invalidSelf, s)
  else
    match likeRepoCreate s ⟨userID, targetUserID, status⟩ with
    | (.alreadyExists, s1) => (.conflict, s1)
    | (.ok, s1) =>
      if status == LikeStatus.like then
        if mutualCheckFails then
          (.created false none, s1)
        else if checkMutualLike s1 userID targetUserID then
          if matchRepoExistsPair s1 userID targetUserID then
            (.created false none, s1)
          else
            match matchRepoCreate s1 userID targetUserID with
            | (.ok m, s2) => (.created true (some m), s2)
            | (.alreadyExists, s2) => (.created false none, s2)
        else
          (.created false none, s1)
      else
        (.created false none, s1)

/-- Outcome the send-message endpoint reports (`ChatHandler.SendMessage`,
authenticated and well-formed path): 403 `noActiveMatch` or 201 with the
persisted message. -/
inductive SendOutcome where
  | noActiveMatch
  | created (msg : Message)
deriving DecidableEq, Repr

/-- Embeds `ChatHandler.SendMessage` from the point where both uuids parsed:
check `matchRepo.Exists(userID, receiverID)`, reject 403 when absent, else
persist a message whose `MatchID` is taken verbatim from the request body. -/
def sendMessage (s : DBState) (userID receiverID : Identity) (matchID : Nat)
    (content : String) : SendOutcome × DBState :=
  if matchRepoExistsPair s userID receiverID then
    let msg : Message := ⟨matchID, userID, receiverID, content⟩
    (.created msg, { s with messages := s.messages ++ [msg] })
  else
    (.noActiveMatch, s)

/-- Outcome the list-messages endpoint reports (`ChatHandler.GetMessages`):
403 denial or 200 with the match's messages. -/
inductive GetMessagesOutcome where
  | notAMember
  | ok (msgs : List Message)
deriving DecidableEq, Repr

/-- Embeds `ChatHandler.GetMessages` from the point where the uuid parsed:
fetch the caller's matches, scan them for the requested id, deny 403 when
absent, else query the message store.  The second component records whether
the message store was queried. -/
def getMessages (s : DBState) (userID : Identity) (matchID : Nat) :
    GetMessagesOutcome × Bool :=
  let userMatches := matchRepoGetByUserID s userID
  let isPartOfMatch := userMatches.any fun m => m.id == matchID
  if isPartOfMatch then
    (.ok (messageRepoGetByMatchID s matchID), true)
  else
    (.notAMember, false)

/-- States reachable from the empty database by sequential, failure-free
invocations of the like endpoint (the only writer of the `likes` and `matches`
tables in the handler layer). -/
inductive Reachable : DBState → Prop where
  | init : Reachable emptyDB
  | step (s : DBState) (u t : Identity) (st : LikeStatus) :
      Reachable s → Reachable (createLike s u t st false).2

/-- Program counter of one in-flight `CreateLike(_, _, "like")` request,
decomposed into its four atomic storage statements. -/
inductive CallerPC where
  | insertLike
  | mutualCheck
  | matchCheck
  | insertMatch
  | finished
deriving DecidableEq, Repr

/-- One in-flight like request: its arguments, its next storage statement, and
the response fields accumulated so far (`Matched` flag, match payload,
whether the like insert hit the 409 conflict). -/
structure CallerState where
  user : Identity
  target : Identity
  pc : CallerPC
  matched : Bool
  foundMatch : Option MatchRow
  conflict : Bool
deriving DecidableEq, Repr

/-- Fresh in-flight request for `CreateLike(u, t, "like")` with `u ≠ t`
(the handler's self-check precedes all storage access). -/
def initCaller (u t : Identity) : CallerState :=
  ⟨u, t, .insertLike, false, none, false⟩

/-- Executes the next atomic storage statement of an in-flight like request.
Each arm is one SQL statement of `LikeHandler.CreateLike` on the `"like"`
path; the database runs it atomically, so an interleaving of two requests is a
sequence of such steps. -/
def stepCaller (s : DBState) (c : CallerState) : DBState × CallerState :=
  match c.pc with
  | .insertLike =>
    match likeRepoCreate s ⟨c.user, c.target, .like⟩ with
    | (.ok, s') => (s', { c with pc := .mutualCheck })
    | (.alreadyExists, s') => (s', { c with pc := .finished, conflict := true })
  | .mutualCheck =>
    if checkMutualLike s c.user c.target then
      (s, { c with pc := .matchCheck })
    else
      (s, { c with pc := .finished })
  | .matchCheck =>
    if matchRepoExistsPair s c.user c.target then
      (s, { c with pc := .finished })
    else
      (s, { c with pc := .insertMatch })
  | .insertMatch =>
    match matchRepoCreate s c.user c.target with
    | (.ok m, s') => (s', { c with pc := .finished, matched := true, foundMatch := some m })
    | (.alreadyExists, s') => (s', { c with pc := .finished })
  | .finished => (s, c)

/-- Runs two in-flight requests under a schedule: `true` steps the first
caller, `false` the second.  A step of a finished caller is a no-op, so the
schedules cover every interleaving of the two requests' storage statements. -/
def runSched (s : DBState) (c1 c2 : CallerState) : List Bool → DBState × CallerState × CallerState
  | [] => (s, c1, c2)
  | true :: rest =>
    let p := stepCaller s c1
    runSched p.1 p.2 c2 rest
  | false :: rest =>
    let p := stepCaller s c2
    runSched p.1 c1 p.2 rest

/-- Ordering invariant on stored match rows: every row satisfies
`identity_low < identity_high` under Go's string order. -/
def lowHighInvariant (s : DBState) : Prop :=
  ∀ m ∈ s.matchRows, strLt m.user1ID m.user2ID = true

/-- Invariant of two like requests, `CreateLike(a, b, "like")` as caller 1 and
`CreateLike(b, a, "like")` as caller 2, racing from a state with no prior
likes between `a` and `b` in either direction and no match row for the pair.
It ties each caller's program counter to the rows it has written, counts match
rows for the pair against the `Matched` flags, and records that a caller that
finishes unmatched can only do so once the pair's row exists or before the
other caller has started writing. -/
structure RaceInv (a b : Identity) (s : DBState) (c1 c2 : CallerState) : Prop where
  user1 : c1.user = a
  target1 : c1.target = b
  user2 : c2.user = b
  target2 : c2.target = a
  likeAbsent1 : c1.pc = CallerPC.insertLike → hasLikePair s a b = false
  likePresent1 : c1.pc ≠ CallerPC.insertLike → hasLikeLike s a b = true
  likeAbsent2 : c2.pc = CallerPC.insertLike → hasLikePair s b a = false
  likePresent2 : c2.pc ≠ CallerPC.insertLike → hasLikeLike s b a = true
  cnt : countPair s a b =
    (if c1.matched then 1 else 0) + (if c2.matched then 1 else 0)
  cntLe : countPair s a b ≤ 1
  fin1 : c1.matched = true → c1.pc = CallerPC.finished
  fin2 : c2.matched = true → c2.pc = CallerPC.finished
  none1 : c1.matched = false → c1.foundMatch = none
  none2 : c2.matched = false → c2.foundMatch = none
  bothDone : c1.pc = CallerPC.finished → c1.matched = false →
    c2.pc = CallerPC.finished → c2.matched = false → countPair s a b = 1

/-! ### Order facts about the string comparison -/

theorem charToNat_inj {c d : Char} (h : c.toNat = d.toNat) : c = d := by
  cases c; cases d
  simp only [Char.toNat] at h
  congr 1
  exact UInt32.ext h

theorem strLtChars_asymm : ∀ x y, strLtChars x y = true → strLtChars y x = false := by
  intro x
  induction x with
  | nil => intro y h; cases y <;> simp_all [strLtChars]
  | cons c cs ih =>
    intro y h
    cases y with
    | nil => simp_all [strLtChars]
    | cons d ds =>
      simp only [strLtChars] at h ⊢
      by_cases hcd : c = d
      · subst hcd
        simp at h ⊢
        exact ih ds h
      · have hdc : ¬ d = c := fun h' => hcd h'.symm
        simp [hcd, hdc] at h ⊢
        omega

theorem strLtChars_conn : ∀ x y, strLtChars x y = false → strLtChars y x = false → x = y := by
  intro x
  induction x with
  | nil => intro y h1 h2; cases y <;> simp_all [strLtChars]
  | cons c cs ih =>
    intro y h1 h2
    cases y with
    | nil => simp_all [strLtChars]
    | cons d ds =>
      simp only [strLtChars] at h1 h2
      by_cases hcd : c = d
      · subst hcd
        simp at h1 h2
        rw [ih ds h1 h2]
      · have hdc : ¬ d = c := fun h' => hcd h'.symm
        simp [hcd, hdc] at h1 h2
        exact absurd (charToNat_inj (by omega)) hcd

theorem strLt_asymm (a b : String) (h : strLt a b = true) : strLt b a = false :=
  strLtChars_asymm _ _ h

theorem strLt_conn (a b : String) (h1 : strLt a b = false) (h2 : strLt b a = false) : a = b := by
  cases a; cases b
  simp only [strLt] at h1 h2
  rw [strLtChars_conn _ _ h1 h2]

/-! ### Facts about the canonical pair -/

theorem canonPair_comm (a b : Identity) : canonPair a b = canonPair b a := by
  unfold canonPair
  cases h1 : strLt b a with
  | true => rw [if_pos rfl, strLt_asymm b a h1, if_neg (by simp)]
  | false =>
    rw [if_neg (by simp)]
    cases h2 : strLt a b with
    | true => rw [if_pos rfl]
    | false => rw [if_neg (by simp), strLt_conn a b h2 h1]

theorem canonPair_cases (a b : Identity) :
    canonPair a b = (a, b) ∨ canonPair a b = (b, a) := by
  unfold canonPair
  cases strLt b a <;> simp

theorem canonPair_strict (a b : Identity) (h : a ≠ b) :
    strLt (canonPair a b).1 (canonPair a b).2 = true := by
  unfold canonPair
  cases h1 : strLt b a with
  | true => simpa using h1
  | false =>
    simp only [Bool.false_eq_true, if_neg]
    cases h2 : strLt a b with
    | true => exact h2
    | false => exact absurd (strLt_conn a b h2 h1) h

/-! ### Small facts about the state operations -/

theorem checkMutualLike_eq (s : DBState) (u t : Identity) :
    checkMutualLike s u t = hasLikeLike s t u := rfl

theorem hasLikePair_append (s : DBState) (l : Like) (u t : Identity) :
    hasLikePair { s with likes := s.likes ++ [l] } u t =
      (hasLikePair s u t || (l.userID == u && l.targetUserID == t)) := by
  simp [hasLikePair, List.any_append]

theorem hasLikeLike_append (s : DBState) (l : Like) (u t : Identity) :
    hasLikeLike { s with likes := s.likes ++ [l] } u t =
      (hasLikeLike s u t ||
        (l.userID == u && l.targetUserID == t && l.status == LikeStatus.like)) := by
  simp [hasLikeLike, List.any_append]

theorem hasLikeLike_pair (s : DBState) (u t : Identity) (h : hasLikeLike s u t = true) :
    hasLikePair s u t = true := by
  simp only [hasLikeLike, List.any_eq_true] at h
  simp only [hasLikePair, List.any_eq_true]
  obtain ⟨l, hl, hp⟩ := h
  exact ⟨l, hl, by simp_all⟩

theorem countPair_comm (s : DBState) (a b : Identity) :
    countPair s a b = countPair s b a := by
  unfold countPair
  simp only [canonPair_comm a b]

theorem matchRepoExistsPair_comm (s : DBState) (a b : Identity) :
    matchRepoExistsPair s a b = matchRepoExistsPair s b a := by
  unfold matchRepoExistsPair
  simp only [canonPair_comm a b]

theorem matchRepoCreate_comm (s : DBState) (a b : Identity) :
    matchRepoCreate s a b = matchRepoCreate s b a := by
  unfold matchRepoCreate
  simp only [canonPair_comm a b, matchRepoExistsPair_comm s a b]

theorem matchRepoExistsPair_false_iff (s : DBState) (a b : Identity) :
    matchRepoExistsPair s a b = false ↔ countPair s a b = 0 := by
  simp [matchRepoExistsPair, countPair, List.countP_eq_zero, List.any_eq_false]

theorem matchRepoExistsPair_true_iff (s : DBState) (a b : Identity) :
    matchRepoExistsPair s a b = true ↔ countPair s a b ≠ 0 := by
  constructor
  · intro h hc
    rw [← matchRepoExistsPair_false_iff] at hc
    simp [h] at hc
  · intro h
    cases he : matchRepoExistsPair s a b
    · exact absurd ((matchRepoExistsPair_false_iff s a b).1 he) h
    · rfl

theorem countPair_likes_update (s : DBState) (lk : List Like) (a b : Identity) :
    countPair { s with likes := lk } a b = countPair s a b := rfl

theorem matchRepoExistsPair_likes_update (s : DBState) (lk : List Like) (a b : Identity) :
    matchRepoExistsPair { s with likes := lk } a b = matchRepoExistsPair s a b := rfl

theorem hasLikePair_matches_update (s : DBState) (mr : List MatchRow) (n : Nat)
    (u t : Identity) :
    hasLikePair { s with matchRows := mr, nextMatchID := n } u t = hasLikePair s u t := rfl

theorem hasLikeLike_matches_update (s : DBState) (mr : List MatchRow) (n : Nat)
    (u t : Identity) :
    hasLikeLike { s with matchRows := mr, nextMatchID := n } u t = hasLikeLike s u t := rfl

theorem matchRepoCreate_of_present (s : DBState) (a b : Identity)
    (h : matchRepoExistsPair s a b = true) :
    matchRepoCreate s a b = (.alreadyExists, s) := by
  simp [matchRepoCreate, h]

theorem matchRepoCreate_of_absent (s : DBState) (a b : Identity)
    (h : matchRepoExistsPair s a b = false) :
    matchRepoCreate s a b =
      (.ok ⟨s.nextMatchID, (canonPair a b).1, (canonPair a b).2⟩,
       { s with
          matchRows := s.matchRows ++ [⟨s.nextMatchID, (canonPair a b).1, (canonPair a b).2⟩],
          nextMatchID := s.nextMatchID + 1 }) := by
  simp [matchRepoCreate, h]

theorem countPair_append_key (s : DBState) (a b : Identity) (n k : Nat) :
    countPair
      { s with
        matchRows := s.matchRows ++ [⟨n, (canonPair a b).1, (canonPair a b).2⟩],
        nextMatchID := k } a b = countPair s a b + 1 := by
  simp [countPair, List.countP_append, List.countP_cons]

theorem strLtChars_irrefl : ∀ x, strLtChars x x = false := by
  intro x
  induction x with
  | nil => rfl
  | cons c cs ih => simp [strLtChars, ih]

theorem strLt_irrefl (a : String) : strLt a a = false :=
  strLtChars_irrefl a.data

theorem canonPair_self (a : Identity) : canonPair a a = (a, a) := by
  simp [canonPair, strLt_irrefl]

theorem canonPair_inj {a b u t : Identity} (h : canonPair a b = canonPair u t) :
    (a = u ∧ b = t) ∨ (a = t ∧ b = u) := by
  rcases canonPair_cases a b with h1 | h1 <;> rcases canonPair_cases u t with h2 | h2 <;>
    rw [h1, h2, Prod.mk.injEq] at h
  · exact Or.inl h
  · exact Or.inr h
  · exact Or.inr ⟨h.2, h.1⟩
  · exact Or.inl ⟨h.2, h.1⟩

theorem any_filter_eq {α : Type} (l : List α) (p q : α → Bool) :
    (l.filter p).any q = l.any fun x => p x && q x := by
  induction l with
  | nil => rfl
  | cons x xs ih =>
    by_cases hp : p x = true <;> simp [List.filter_cons, hp, ih]

/-! ### Claim theorems -/

/-- C4: for all distinct identities, the match store's canonicalization is
order-independent — `Create` and `Exists` map `(A,B)` and `(B,A)` to the same
canonical key and behave identically — and ordered: the canonical pair is
strictly sorted by the string order, and `Create` preserves the invariant that
every stored match row satisfies `identity_low < identity_high`. -/
theorem canonicalization_order_independent (s : DBState) (a b : Identity) (h : a ≠ b) :
    canonPair a b = canonPair b a
    ∧ strLt (canonPair a b).1 (canonPair a b).2 = true
    ∧ matchRepoCreate s a b = matchRepoCreate s b a
    ∧ matchRepoExistsPair s a b = matchRepoExistsPair s b a
    ∧ (lowHighInvariant s → lowHighInvariant (matchRepoCreate s a b).2) := by
  refine ⟨canonPair_comm a b, canonPair_strict a b h, matchRepoCreate_comm s a b,
    matchRepoExistsPair_comm s a b, ?_⟩
  intro hs
  cases he : matchRepoExistsPair s a b with
  | true =>
    rw [matchRepoCreate_of_present s a b he]
    exact hs
  | false =>
    rw [matchRepoCreate_of_absent s a b he]
    intro m hm
    simp only [List.mem_append, List.mem_singleton] at hm
    rcases hm with hm | rfl
    · exact hs m hm
    · exact canonPair_strict a b h

/-- Witness for C4 at the concrete pair "a", "b" over the empty database. -/
theorem canonicalization_order_independent_witness :
    ("a" : Identity) ≠ "b"
    ∧ (canonPair "a" "b" = canonPair "b" "a"
      ∧ strLt (canonPair "a" "b").1 (canonPair "a" "b").2 = true
      ∧ matchRepoCreate emptyDB "a" "b" = matchRepoCreate emptyDB "b" "a"
      ∧ matchRepoExistsPair emptyDB "a" "b" = matchRepoExistsPair emptyDB "b" "a"
      ∧ (lowHighInvariant emptyDB → lowHighInvariant (matchRepoCreate emptyDB "a" "b").2)) :=
  ⟨by decide, canonicalization_order_independent emptyDB "a" "b" (by decide)⟩

/-- C6: a send-message request is rejected with the no-active-match denial and
persists nothing when no match row exists for the canonical (sender, receiver)
pair, and persists exactly one message when one does exist. -/
theorem sendMessage_requires_match (s : DBState) (u r : Identity) (mid : Nat) (ct : String) :
    (matchRepoExistsPair s u r = false →
      sendMessage s u r mid ct = (.noActiveMatch, s))
    ∧ (matchRepoExistsPair s u r = true →
      sendMessage s u r mid ct =
        (.created ⟨mid, u, r, ct⟩, { s with messages := s.messages ++ [⟨mid, u, r, ct⟩] })) := by
  constructor <;> intro h <;> simp [sendMessage, h]

/-- Witness for C6: over the empty database no match exists, so the send is
denied and the state is unchanged. -/
theorem sendMessage_requires_match_witness :
    matchRepoExistsPair emptyDB "a" "b" = false
    ∧ sendMessage emptyDB "a" "b" 7 "hi" = (.noActiveMatch, emptyDB) :=
  ⟨by decide, (sendMessage_requires_match emptyDB "a" "b" 7 "hi").1 (by decide)⟩

/-- C10: `SendMessage` never ties the request's match id to the (sender,
receiver) pair: whenever any match exists for the pair, a send naming the id
of an arbitrary match row `m'` succeeds and persists the message under
`m'.id` verbatim. -/
theorem sendMessage_matchid_verbatim (s : DBState) (u r : Identity) (m' : MatchRow)
    (ct : String) (h1 : matchRepoExistsPair s u r = true) (_h2 : m' ∈ s.matchRows) :
    sendMessage s u r m'.id ct =
      (.created ⟨m'.id, u, r, ct⟩,
       { s with messages := s.messages ++ [⟨m'.id, u, r, ct⟩] }) := by
  simp [sendMessage, h1]

/-- Witness for C10: with a match between "a" and "b" and an unrelated match
between "c" and "d" (id 1), "a" sends to "b" naming match id 1 and the message
is persisted under id 1. -/
theorem sendMessage_matchid_verbatim_witness :
    matchRepoExistsPair ⟨[], [⟨0, "a", "b"⟩, ⟨1, "c", "d"⟩], [], 2⟩ "a" "b" = true
    ∧ (⟨1, "c", "d"⟩ : MatchRow) ∈ (⟨[], [⟨0, "a", "b"⟩, ⟨1, "c", "d"⟩], [], 2⟩ : DBState).matchRows
    ∧ sendMessage ⟨[], [⟨0, "a", "b"⟩, ⟨1, "c", "d"⟩], [], 2⟩ "a" "b"
        (⟨1, "c", "d"⟩ : MatchRow).id "hi" =
      (.created ⟨1, "a", "b", "hi"⟩,
       ⟨[], [⟨0, "a", "b"⟩, ⟨1, "c", "d"⟩], [⟨1, "a", "b", "hi"⟩], 2⟩) :=
  ⟨by decide, by decide,
    sendMessage_matchid_verbatim ⟨[], [⟨0, "a", "b"⟩, ⟨1, "c", "d"⟩], [], 2⟩ "a" "b"
      ⟨1, "c", "d"⟩ "hi" (by decide) (by decide)⟩

/-- C7: messages for a match id are returned only when the requester is one of
the two members of a match row with that id; otherwise the request is denied,
and on denial the message store is not queried (the second component of
`getMessages` records whether it was). -/
theorem getMessages_membership_gate (s : DBState) (u : Identity) (mid : Nat) :
    (∀ msgs q, getMessages s u mid = (.ok msgs, q) →
      s.matchRows.any (fun m => m.id == mid && (m.user1ID == u || m.user2ID == u)) = true
      ∧ msgs = messageRepoGetByMatchID s mid ∧ q = true)
    ∧ (s.matchRows.any (fun m => m.id == mid && (m.user1ID == u || m.user2ID == u)) = false →
      getMessages s u mid = (.notAMember, false)) := by
  have hmem : (matchRepoGetByUserID s u).any (fun m => m.id == mid)
      = s.matchRows.any (fun m => m.id == mid && (m.user1ID == u || m.user2ID == u)) := by
    rw [matchRepoGetByUserID, any_filter_eq]
    congr 1
    funext m
    cases hu : (m.user1ID == u || m.user2ID == u) <;> cases hi : (m.id == mid) <;> simp [hu, hi]
  constructor
  · intro msgs q hok
    rw [getMessages, hmem] at hok
    cases hc : s.matchRows.any (fun m => m.id == mid && (m.user1ID == u || m.user2ID == u)) with
    | true =>
      rw [hc] at hok
      simp only [if_pos] at hok
      exact ⟨rfl, by injection hok with h1 h2; injection h1 with h3; exact h3.symm,
        by injection hok with h1 h2; exact h2.symm⟩
    | false =>
      rw [hc] at hok
      simp at hok
  · intro hno
    rw [getMessages, hmem, hno]
    simp

/-- Witness for C7: with one match (id 0) between "a" and "b", requester "c"
is denied and the store is not queried. -/
theorem getMessages_membership_gate_witness :
    (⟨[], [⟨0, "a", "b"⟩], [⟨0, "a", "b", "hi"⟩], 1⟩ : DBState).matchRows.any
      (fun m => m.id == 0 && (m.user1ID == "c" || m.user2ID == "c")) = false
    ∧ getMessages ⟨[], [⟨0, "a", "b"⟩], [⟨0, "a", "b", "hi"⟩], 1⟩ "c" 0 = (.notAMember, false) :=
  ⟨by decide,
    (getMessages_membership_gate ⟨[], [⟨0, "a", "b"⟩], [⟨0, "a", "b", "hi"⟩], 1⟩ "c" 0).2
      (by decide)⟩

/-- C8: a second decision for an ordered pair that already has one fails with
the conflict (`DecisionAlreadyExists` / `ErrLikeAlreadyExists` → 409) and
leaves the stored state — in particular the original row's status — entirely
unchanged, whatever the new status or the mutuality-check fault flag. -/
theorem duplicate_decision_conflict (s : DBState) (u t : Identity) (st : LikeStatus)
    (f : Bool) (h1 : u ≠ t) (h2 : hasLikePair s u t = true) :
    createLike s u t st f = (.conflict, s) := by
  have hb : (u == t) = false := by
    cases hbe : u == t
    · rfl
    · exact absurd (by simpa using hbe) h1
  simp [createLike, likeRepoCreate, hb, h2]

/-- Witness for C8: "a" has already passed on "b"; a second like attempt
conflicts and the pass row survives unchanged. -/
theorem duplicate_decision_conflict_witness :
    ("a" : Identity) ≠ "b"
    ∧ hasLikePair ⟨[⟨"a", "b", .pass⟩], [], [], 0⟩ "a" "b" = true
    ∧ createLike ⟨[⟨"a", "b", .pass⟩], [], [], 0⟩ "a" "b" .like false =
        (.conflict, ⟨[⟨"a", "b", .pass⟩], [], [], 0⟩) :=
  ⟨by decide, by decide,
    duplicate_decision_conflict ⟨[⟨"a", "b", .pass⟩], [], [], 0⟩ "a" "b" .like false
      (by decide) (by decide)⟩

/-- Counterexample to C2 as stated: "b" has already liked "a" (mutuality in
fact holds), the mutuality lookup of `CreateLike("a", "b", like)` fails, and
the handler still answers with a successful created response carrying
`matched = false` and no match — the storage error is not propagated. -/
theorem mutual_check_error_not_propagated :
    checkMutualLike ⟨[⟨"b", "a", .like⟩], [], [], 0⟩ "a" "b" = true
    ∧ createLike ⟨[⟨"b", "a", .like⟩], [], [], 0⟩ "a" "b" .like true =
        (.created false none, ⟨[⟨"b", "a", .like⟩, ⟨"a", "b", .like⟩], [], [], 0⟩) := by
  constructor
  · decide
  · decide

/-- C2 amended: when the mutuality lookup errors during a like decision,
`CreateLike` swallows the error: it answers the same successful created
response with `matched = false` and no match that a confirmed-non-mutual like
receives, with only the like row persisted. -/
theorem mutual_check_error_swallowed (s : DBState) (u t : Identity)
    (h1 : u ≠ t) (h2 : hasLikePair s u t = false) :
    createLike s u t .like true =
      (.created false none, { s with likes := s.likes ++ [⟨u, t, .like⟩] }) := by
  have hb : (u == t) = false := by
    cases hbe : u == t
    · rfl
    · exact absurd (by simpa using hbe) h1
  simp [createLike, likeRepoCreate, hb, h2]

/-- Witness for the amended C2 at the state where "b" already likes "a". -/
theorem mutual_check_error_swallowed_witness :
    ("a" : Identity) ≠ "b"
    ∧ hasLikePair ⟨[⟨"b", "a", .like⟩], [], [], 0⟩ "a" "b" = false
    ∧ createLike ⟨[⟨"b", "a", .like⟩], [], [], 0⟩ "a" "b" .like true =
        (.created false none, ⟨[⟨"b", "a", .like⟩, ⟨"a", "b", .like⟩], [], [], 0⟩) :=
  ⟨by decide, by decide,
    mutual_check_error_swallowed ⟨[⟨"b", "a", .like⟩], [], [], 0⟩ "a" "b"
      (by decide) (by decide)⟩

/-- Counterexample to C9 as stated: the match store does not reject the
identical pair — `Create("a","a")` on an empty store succeeds, persists a row
with `identity_low = identity_high = "a"`, and afterwards `Exists("a","a")`
reports true; no `InvalidPair` condition is signalled anywhere in the
store. -/
theorem selfPair_create_succeeds :
    matchRepoCreate emptyDB "a" "a" =
      (.ok ⟨0, "a", "a"⟩, ⟨[], [⟨0, "a", "a"⟩], [], 1⟩)
    ∧ matchRepoExistsPair ⟨[], [⟨0, "a", "a"⟩], [], 1⟩ "a" "a" = true := by
  constructor
  · decide
  · decide

/-- C9 amended: the pair-canonicalizing match-store operations perform no
self-pair validation: on a store without the row, `Create(A,A)` inserts a row
whose two identity columns are both `A` and `Exists(A,A)` then reports it;
self-pair rejection exists only in the handler layer, where `CreateLike`
refuses `actor == target` before touching storage. -/
theorem selfPair_accepted_by_store (s : DBState) (a : Identity)
    (h : matchRepoExistsPair s a a = false) :
    matchRepoCreate s a a =
      (.ok ⟨s.nextMatchID, a, a⟩,
       { s with matchRows := s.matchRows ++ [⟨s.nextMatchID, a, a⟩],
                nextMatchID := s.nextMatchID + 1 })
    ∧ matchRepoExistsPair (matchRepoCreate s a a).2 a a = true
    ∧ (∀ st f, createLike s a a st f = (.invalidSelf, s)) := by
  have hcreate := matchRepoCreate_of_absent s a a h
  rw [canonPair_self] at hcreate
  refine ⟨hcreate, ?_, ?_⟩
  · rw [hcreate]
    simp [matchRepoExistsPair, canonPair_self, List.any_append]
  · intro st f
    simp [createLike]

/-- Witness for the amended C9 on the empty store with identity "a". -/
theorem selfPair_accepted_by_store_witness :
    matchRepoExistsPair emptyDB "a" "a" = false
    ∧ (matchRepoCreate emptyDB "a" "a" =
        (.ok ⟨0, "a", "a"⟩, ⟨[], [⟨0, "a", "a"⟩], [], 1⟩)
      ∧ matchRepoExistsPair (matchRepoCreate emptyDB "a" "a").2 "a" "a" = true
      ∧ (∀ st f, createLike emptyDB "a" "a" st f = (.invalidSelf, emptyDB))) :=
  ⟨by decide, selfPair_accepted_by_store emptyDB "a" (by decide)⟩

/-- Counterexample to C3 as stated: "b" already likes "a" and the match
(id 0) already exists; `CreateLike("a","b",like)` records the like, detects
mutuality, finds the match existing — and answers `matched = false` with no
match payload instead of `matched = true` with the existing match. -/
theorem existing_match_detection_counterexample :
    checkMutualLike ⟨[⟨"b", "a", .like⟩], [⟨0, "a", "b"⟩], [], 1⟩ "a" "b" = true
    ∧ matchRepoExistsPair ⟨[⟨"b", "a", .like⟩], [⟨0, "a", "b"⟩], [], 1⟩ "a" "b" = true
    ∧ createLike ⟨[⟨"b", "a", .like⟩], [⟨0, "a", "b"⟩], [], 1⟩ "a" "b" .like false =
        (.created false none,
         ⟨[⟨"b", "a", .like⟩, ⟨"a", "b", .like⟩], [⟨0, "a", "b"⟩], [], 1⟩) := by
  refine ⟨by decide, by decide, by decide⟩

/-- C3 amended: when a like decision reaches mutuality detection and a Match
for the pair already exists, `CreateLike` returns `matched = false` with no
match payload (never the existing match), and creates no second Match — the
state changes only by the inserted like row. -/
theorem existing_match_detection_matched_false (s : DBState) (u t : Identity)
    (h1 : u ≠ t) (h2 : hasLikePair s u t = false)
    (h3 : checkMutualLike s u t = true) (h4 : matchRepoExistsPair s u t = true) :
    createLike s u t .like false =
      (.created false none, { s with likes := s.likes ++ [⟨u, t, .like⟩] }) := by
  have hb : (u == t) = false := by
    cases hbe : u == t
    · rfl
    · exact absurd (by simpa using hbe) h1
  have hm1 : checkMutualLike { s with likes := s.likes ++ [⟨u, t, LikeStatus.like⟩] } u t
      = true := by
    rw [checkMutualLike_eq, hasLikeLike_append]
    rw [checkMutualLike_eq] at h3
    simp [h3]
  have he1 : matchRepoExistsPair { s with likes := s.likes ++ [⟨u, t, LikeStatus.like⟩] } u t
      = true := by
    rw [matchRepoExistsPair_likes_update]
    exact h4
  simp [createLike, likeRepoCreate, hb, h2, hm1, he1]

/-- Witness for the amended C3 at the counterexample state. -/
theorem existing_match_detection_matched_false_witness :
    (("a" : Identity) ≠ "b"
      ∧ hasLikePair ⟨[⟨"b", "a", .like⟩], [⟨0, "a", "b"⟩], [], 1⟩ "a" "b" = false
      ∧ checkMutualLike ⟨[⟨"b", "a", .like⟩], [⟨0, "a", "b"⟩], [], 1⟩ "a" "b" = true
      ∧ matchRepoExistsPair ⟨[⟨"b", "a", .like⟩], [⟨0, "a", "b"⟩], [], 1⟩ "a" "b" = true)
    ∧ createLike ⟨[⟨"b", "a", .like⟩], [⟨0, "a", "b"⟩], [], 1⟩ "a" "b" .like false =
        (.created false none,
         ⟨[⟨"b", "a", .like⟩, ⟨"a", "b", .like⟩], [⟨0, "a", "b"⟩], [], 1⟩) :=
  ⟨⟨by decide, by decide, by decide, by decide⟩,
    existing_match_detection_matched_false ⟨[⟨"b", "a", .like⟩], [⟨0, "a", "b"⟩], [], 1⟩
      "a" "b" (by decide) (by decide) (by decide) (by decide)⟩

theorem matchRepoExistsPair_append_key (s : DBState) (n k : Nat) (u t a b : Identity) :
    matchRepoExistsPair
      { s with matchRows := s.matchRows ++ [⟨n, (canonPair u t).1, (canonPair u t).2⟩],
               nextMatchID := k } a b
    = (matchRepoExistsPair s a b ||
        ((canonPair u t).1 == (canonPair a b).1 && (canonPair u t).2 == (canonPair a b).2)) := by
  simp [matchRepoExistsPair, List.any_append]


/-- C5: in every state reachable by failure-free like decisions from the empty
database, a match row for a pair of distinct identities exists exactly when
both directional like rows exist. -/
theorem match_iff_mutual_likes (s : DBState) (hs : Reachable s) :
    ∀ a b : Identity, a ≠ b →
      matchRepoExistsPair s a b = (hasLikeLike s a b && hasLikeLike s b a) := by
  induction hs with
  | init => intro a b hab; rfl
  | step s u t st hr ih =>
    intro a b hab
    by_cases hut : u = t
    · simpa [createLike, hut] using ih a b hab
    have hb : (u == t) = false := by
      cases hbe : u == t
      · rfl
      · exact absurd (by simpa using hbe) hut
    cases hdup : hasLikePair s u t with
    | true => simpa [createLike, likeRepoCreate, hb, hdup] using ih a b hab
    | false =>
      have hins : likeRepoCreate s ⟨u, t, st⟩ =
          (.ok, { s with likes := s.likes ++ [⟨u, t, st⟩] }) := by
        simp [likeRepoCreate, hdup]
      cases st with
      | pass =>
        have hres : (createLike s u t .pass false).2 =
            { s with likes := s.likes ++ [⟨u, t, .pass⟩] } := by
          simp [createLike, hins, hut]
        rw [hres, matchRepoExistsPair_likes_update, hasLikeLike_append, hasLikeLike_append]
        simp only [show (LikeStatus.pass == LikeStatus.like) = false from rfl,
          Bool.and_false, Bool.or_false]
        exact ih a b hab
      | like =>
        have hcm : checkMutualLike { s with likes := s.likes ++ [⟨u, t, .like⟩] } u t
            = hasLikeLike s t u := by
          rw [checkMutualLike_eq, hasLikeLike_append]
          simp [hb]
        cases hmut : hasLikeLike s t u with
        | false =>
          have hres : (createLike s u t .like false).2 =
              { s with likes := s.likes ++ [⟨u, t, .like⟩] } := by
            simp [createLike, hins, hcm, hmut, hut]
          rw [hres, matchRepoExistsPair_likes_update, hasLikeLike_append, hasLikeLike_append]
          simp only [show (LikeStatus.like == LikeStatus.like) = true from rfl, Bool.and_true]
          rw [ih a b hab]
          by_cases hp1 : u = a ∧ t = b
          · obtain ⟨h5, h6⟩ := hp1
            subst h5; subst h6
            simp [hmut, hb]
          · by_cases hp2 : u = b ∧ t = a
            · obtain ⟨h5, h6⟩ := hp2
              subst h5; subst h6
              simp [hmut, hb]
            · have hp1' : ((u == a) && (t == b)) = false := by
                cases h5 : u == a with
                | false => rfl
                | true =>
                  cases h6 : t == b with
                  | false => simp
                  | true =>
                    exact absurd ⟨by simpa using h5, by simpa using h6⟩ hp1
              have hp2' : ((u == b) && (t == a)) = false := by
                cases h5 : u == b with
                | false => rfl
                | true =>
                  cases h6 : t == a with
                  | false => simp
                  | true =>
                    exact absurd ⟨by simpa using h5, by simpa using h6⟩ hp2
              simp [hp1', hp2']
        | true =>
          cases he : matchRepoExistsPair s u t with
          | true =>
            have hex := ih u t hut
            rw [he] at hex
            have hX : hasLikeLike s u t = true := by
              cases hx : hasLikeLike s u t with
              | false => rw [hx] at hex; simp at hex
              | true => rfl
            have hpair := hasLikeLike_pair s u t hX
            rw [hdup] at hpair
            exact absurd hpair (by simp)
          | false =>
            have he1 : matchRepoExistsPair { s with likes := s.likes ++ [⟨u, t, .like⟩] } u t
                = false := by
              rw [matchRepoExistsPair_likes_update]
              exact he
            have hmc := matchRepoCreate_of_absent
              { s with likes := s.likes ++ [⟨u, t, .like⟩] } u t he1
            have hres : (createLike s u t .like false).2 =
                { s with likes := s.likes ++ [⟨u, t, .like⟩],
                         matchRows := s.matchRows ++
                           [⟨s.nextMatchID, (canonPair u t).1, (canonPair u t).2⟩],
                         nextMatchID := s.nextMatchID + 1 } := by
              simp [createLike, hins, hcm, hmut, he1, hmc, hut]
            rw [hres]
            have hA : hasLikeLike
                { s with likes := s.likes ++ [⟨u, t, .like⟩],
                         matchRows := s.matchRows ++
                           [⟨s.nextMatchID, (canonPair u t).1, (canonPair u t).2⟩],
                         nextMatchID := s.nextMatchID + 1 } a b
                = (hasLikeLike s a b || ((u == a) && (t == b))) := by
              simp [hasLikeLike, List.any_append]
            have hB : hasLikeLike
                { s with likes := s.likes ++ [⟨u, t, .like⟩],
                         matchRows := s.matchRows ++
                           [⟨s.nextMatchID, (canonPair u t).1, (canonPair u t).2⟩],
                         nextMatchID := s.nextMatchID + 1 } b a
                = (hasLikeLike s b a || ((u == b) && (t == a))) := by
              simp [hasLikeLike, List.any_append]
            have hE : matchRepoExistsPair
                { s with likes := s.likes ++ [⟨u, t, .like⟩],
                         matchRows := s.matchRows ++
                           [⟨s.nextMatchID, (canonPair u t).1, (canonPair u t).2⟩],
                         nextMatchID := s.nextMatchID + 1 } a b
                = (matchRepoExistsPair s a b ||
                    ((canonPair u t).1 == (canonPair a b).1
                      && (canonPair u t).2 == (canonPair a b).2)) := by
              simp [matchRepoExistsPair, List.any_append]
            rw [hA, hB, hE, ih a b hab]
            cases hkey : ((canonPair u t).1 == (canonPair a b).1
                && (canonPair u t).2 == (canonPair a b).2) with
            | true =>
              obtain ⟨hk1, hk2⟩ := Bool.and_eq_true_iff.mp hkey
              have hkeq : canonPair u t = canonPair a b := by
                have h1 : (canonPair u t).1 = (canonPair a b).1 := by simpa using hk1
                have h2x : (canonPair u t).2 = (canonPair a b).2 := by simpa using hk2
                exact Prod.ext h1 h2x
              rcases canonPair_inj hkeq.symm with ⟨h5, h6⟩ | ⟨h5, h6⟩
              · subst h5; subst h6
                simp [hmut]
              · subst h5; subst h6
                simp [hmut]
            | false =>
              have hP1 : ((u == a) && (t == b)) = false := by
                cases h5 : u == a with
                | false => rfl
                | true =>
                  cases h6 : t == b with
                  | false => simp
                  | true =>
                    have ha' : u = a := by simpa using h5
                    have hb' : t = b := by simpa using h6
                    rw [ha', hb'] at hkey
                    simp at hkey
              have hP2 : ((u == b) && (t == a)) = false := by
                cases h5 : u == b with
                | false => rfl
                | true =>
                  cases h6 : t == a with
                  | false => simp
                  | true =>
                    have ha' : u = b := by simpa using h5
                    have hb' : t = a := by simpa using h6
                    rw [ha', hb', canonPair_comm b a] at hkey
                    simp at hkey
              simp [hP1, hP2]

/-- Witness for C5 at the state reached by "a" liking "b" and then "b" liking
"a": both like rows and the match row are present, so both sides of the
equivalence hold. -/
theorem match_iff_mutual_likes_witness :
    ("a" : Identity) ≠ "b"
    ∧ matchRepoExistsPair
        (createLike (createLike emptyDB "a" "b" .like false).2 "b" "a" .like false).2 "a" "b"
      = (hasLikeLike
          (createLike (createLike emptyDB "a" "b" .like false).2 "b" "a" .like false).2 "a" "b"
        && hasLikeLike
          (createLike (createLike emptyDB "a" "b" .like false).2 "b" "a" .like false).2 "b" "a") :=
  ⟨by decide,
    match_iff_mutual_likes _
      (Reachable.step (createLike emptyDB "a" "b" .like false).2 "b" "a" .like
        (Reachable.step emptyDB "a" "b" .like Reachable.init)) "a" "b" (by decide)⟩

theorem raceInv_swap {a b : Identity} {s : DBState} {c1 c2 : CallerState}
    (H : RaceInv a b s c1 c2) : RaceInv b a s c2 c1 :=
  { user1 := H.user2
    target1 := H.target2
    user2 := H.user1
    target2 := H.target1
    likeAbsent1 := H.likeAbsent2
    likePresent1 := H.likePresent2
    likeAbsent2 := H.likeAbsent1
    likePresent2 := H.likePresent1
    cnt := by rw [countPair_comm s b a, H.cnt, Nat.add_comm]
    cntLe := by rw [countPair_comm s b a]; exact H.cntLe
    fin1 := H.fin2
    fin2 := H.fin1
    none1 := H.none2
    none2 := H.none1
    bothDone := fun h1 h2 h3 h4 => by
      rw [countPair_comm s b a]; exact H.bothDone h3 h4 h1 h2 }

theorem raceInv_step1 {a b : Identity} (hab : a ≠ b) {s : DBState} {c1 c2 : CallerState}
    (H : RaceInv a b s c1 c2) :
    RaceInv a b (stepCaller s c1).1 (stepCaller s c1).2 c2 := by
  have hab' : (a == b) = false := by
    cases hbe : a == b
    · rfl
    · exact absurd (by simpa using hbe) hab
  obtain ⟨u1, t1, pc1, m1, f1, cf1⟩ := c1
  obtain rfl : a = u1 := H.user1.symm
  obtain rfl : b = t1 := H.target1.symm
  cases pc1 with
  | insertLike =>
    have hm1 : m1 = false := by
      cases hm : m1
      · rfl
      · have := H.fin1 hm
        simp at this
    have habs : hasLikePair s a b = false := H.likeAbsent1 rfl
    have hstep : stepCaller s ⟨a, b, .insertLike, m1, f1, cf1⟩ =
        ({ s with likes := s.likes ++ [⟨a, b, .like⟩] },
         ⟨a, b, .mutualCheck, m1, f1, cf1⟩) := by
      simp [stepCaller, likeRepoCreate, habs]
    rw [hstep]
    refine
      { user1 := rfl, target1 := rfl, user2 := H.user2, target2 := H.target2
        likeAbsent1 := ?_, likePresent1 := ?_, likeAbsent2 := ?_, likePresent2 := ?_
        cnt := ?_, cntLe := ?_, fin1 := ?_, fin2 := H.fin2
        none1 := fun _ => H.none1 hm1, none2 := H.none2, bothDone := ?_ }
    · intro h; simp at h
    · intro _
      rw [hasLikeLike_append]
      simp
    · intro h
      rw [hasLikePair_append, H.likeAbsent2 h]
      simp [hab']
    · intro h
      rw [hasLikeLike_append]
      simp [H.likePresent2 h]
    · rw [countPair_likes_update]; exact H.cnt
    · rw [countPair_likes_update]; exact H.cntLe
    · intro h; simp [hm1] at h
    · intro h; simp at h
  | mutualCheck =>
    have hm1 : m1 = false := by
      cases hm : m1
      · rfl
      · have := H.fin1 hm
        simp at this
    cases hc : hasLikeLike s b a with
    | true =>
      have hstep : stepCaller s ⟨a, b, .mutualCheck, m1, f1, cf1⟩ =
          (s, ⟨a, b, .matchCheck, m1, f1, cf1⟩) := by
        simp [stepCaller, checkMutualLike_eq, hc]
      rw [hstep]
      refine
        { user1 := rfl, target1 := rfl, user2 := H.user2, target2 := H.target2
          likeAbsent1 := ?_, likePresent1 := fun _ => H.likePresent1 (by simp)
          likeAbsent2 := H.likeAbsent2, likePresent2 := H.likePresent2
          cnt := H.cnt, cntLe := H.cntLe, fin1 := ?_, fin2 := H.fin2
          none1 := fun _ => H.none1 hm1, none2 := H.none2, bothDone := ?_ }
      · intro h; simp at h
      · intro h; simp [hm1] at h
      · intro h; simp at h
    | false =>
      have hstep : stepCaller s ⟨a, b, .mutualCheck, m1, f1, cf1⟩ =
          (s, ⟨a, b, .finished, m1, f1, cf1⟩) := by
        simp [stepCaller, checkMutualLike_eq, hc]
      rw [hstep]
      refine
        { user1 := rfl, target1 := rfl, user2 := H.user2, target2 := H.target2
          likeAbsent1 := ?_, likePresent1 := fun _ => H.likePresent1 (by simp)
          likeAbsent2 := H.likeAbsent2, likePresent2 := H.likePresent2
          cnt := H.cnt, cntLe := H.cntLe, fin1 := fun _ => rfl, fin2 := H.fin2
          none1 := fun _ => H.none1 hm1, none2 := H.none2, bothDone := ?_ }
      · intro h; simp at h
      · intro _ _ h3 _
        by_cases hpc2 : c2.pc = CallerPC.insertLike
        · rw [hpc2] at h3
          simp at h3
        · exact absurd (H.likePresent2 hpc2) (by simp [hc])
  | matchCheck =>
    have hm1 : m1 = false := by
      cases hm : m1
      · rfl
      · have := H.fin1 hm
        simp at this
    cases he : matchRepoExistsPair s a b with
    | true =>
      have hstep : stepCaller s ⟨a, b, .matchCheck, m1, f1, cf1⟩ =
          (s, ⟨a, b, .finished, m1, f1, cf1⟩) := by
        simp [stepCaller, he]
      rw [hstep]
      refine
        { user1 := rfl, target1 := rfl, user2 := H.user2, target2 := H.target2
          likeAbsent1 := ?_, likePresent1 := fun _ => H.likePresent1 (by simp)
          likeAbsent2 := H.likeAbsent2, likePresent2 := H.likePresent2
          cnt := H.cnt, cntLe := H.cntLe, fin1 := fun _ => rfl, fin2 := H.fin2
          none1 := fun _ => H.none1 hm1, none2 := H.none2, bothDone := ?_ }
      · intro h; simp at h
      · intro _ _ _ _
        have hpos := (matchRepoExistsPair_true_iff s a b).1 he
        have hle := H.cntLe
        show countPair s a b = 1
        omega
    | false =>
      have hstep : stepCaller s ⟨a, b, .matchCheck, m1, f1, cf1⟩ =
          (s, ⟨a, b, .insertMatch, m1, f1, cf1⟩) := by
        simp [stepCaller, he]
      rw [hstep]
      refine
        { user1 := rfl, target1 := rfl, user2 := H.user2, target2 := H.target2
          likeAbsent1 := ?_, likePresent1 := fun _ => H.likePresent1 (by simp)
          likeAbsent2 := H.likeAbsent2, likePresent2 := H.likePresent2
          cnt := H.cnt, cntLe := H.cntLe, fin1 := ?_, fin2 := H.fin2
          none1 := fun _ => H.none1 hm1, none2 := H.none2, bothDone := ?_ }
      · intro h; simp at h
      · intro h; simp [hm1] at h
      · intro h; simp at h
  | insertMatch =>
    have hm1 : m1 = false := by
      cases hm : m1
      · rfl
      · have := H.fin1 hm
        simp at this
    cases he : matchRepoExistsPair s a b with
    | true =>
      have hstep : stepCaller s ⟨a, b, .insertMatch, m1, f1, cf1⟩ =
          (s, ⟨a, b, .finished, m1, f1, cf1⟩) := by
        simp [stepCaller, matchRepoCreate_of_present s a b he]
      rw [hstep]
      refine
        { user1 := rfl, target1 := rfl, user2 := H.user2, target2 := H.target2
          likeAbsent1 := ?_, likePresent1 := fun _ => H.likePresent1 (by simp)
          likeAbsent2 := H.likeAbsent2, likePresent2 := H.likePresent2
          cnt := H.cnt, cntLe := H.cntLe, fin1 := fun _ => rfl, fin2 := H.fin2
          none1 := fun _ => H.none1 hm1, none2 := H.none2, bothDone := ?_ }
      · intro h; simp at h
      · intro _ _ _ _
        have hpos := (matchRepoExistsPair_true_iff s a b).1 he
        have hle := H.cntLe
        show countPair s a b = 1
        omega
    | false =>
      have h0 : countPair s a b = 0 := (matchRepoExistsPair_false_iff s a b).1 he
      have hm2 : c2.matched = false := by
        have hcnt := H.cnt
        rw [h0, hm1] at hcnt
        cases hm2x : c2.matched
        · rfl
        · rw [hm2x] at hcnt
          simp at hcnt
      have hstep : stepCaller s ⟨a, b, .insertMatch, m1, f1, cf1⟩ =
          ({ s with
              matchRows := s.matchRows ++
                [⟨s.nextMatchID, (canonPair a b).1, (canonPair a b).2⟩],
              nextMatchID := s.nextMatchID + 1 },
           ⟨a, b, .finished, true,
            some ⟨s.nextMatchID, (canonPair a b).1, (canonPair a b).2⟩, cf1⟩) := by
        simp [stepCaller, matchRepoCreate_of_absent s a b he]
      rw [hstep]
      refine
        { user1 := rfl, target1 := rfl, user2 := H.user2, target2 := H.target2
          likeAbsent1 := ?_, likePresent1 := ?_
          likeAbsent2 := ?_, likePresent2 := ?_
          cnt := ?_, cntLe := ?_, fin1 := fun _ => rfl, fin2 := H.fin2
          none1 := ?_, none2 := H.none2, bothDone := ?_ }
      · intro h; simp at h
      · intro _
        rw [hasLikeLike_matches_update]
        exact H.likePresent1 (by simp)
      · intro h
        rw [hasLikePair_matches_update]
        exact H.likeAbsent2 h
      · intro h
        rw [hasLikeLike_matches_update]
        exact H.likePresent2 h
      · rw [countPair_append_key, h0, hm2]
        simp
      · rw [countPair_append_key, h0]
      · intro h; simp at h
      · intro _ h2x _ _
        simp at h2x
  | finished =>
    have hstep : stepCaller s ⟨a, b, .finished, m1, f1, cf1⟩ =
        (s, ⟨a, b, .finished, m1, f1, cf1⟩) := rfl
    rw [hstep]
    exact H

theorem raceInv_run {a b : Identity} (hab : a ≠ b) (L : List Bool) :
    ∀ (s : DBState) (c1 c2 : CallerState), RaceInv a b s c1 c2 →
      RaceInv a b (runSched s c1 c2 L).1 (runSched s c1 c2 L).2.1 (runSched s c1 c2 L).2.2 := by
  induction L with
  | nil => intro s c1 c2 H; exact H
  | cons x rest ih =>
    intro s c1 c2 H
    cases x
    · have H2 := raceInv_swap (raceInv_step1 (fun h => hab h.symm) (raceInv_swap H))
      simpa [runSched] using ih (stepCaller s c2).1 c1 (stepCaller s c2).2 H2
    · have H1 := raceInv_step1 hab H
      simpa [runSched] using ih (stepCaller s c1).1 (stepCaller s c1).2 c2 H1

/-- C1 amended: under any interleaving of the two concurrent like requests for
a pair (each argument order), once both complete, exactly one match row exists
for the pair and exactly one caller observes that it created the match
(`matched = true`); the other caller observes `matched = false` with no match
payload — an already-exists error or a skipped create — not the pre-existing
row. -/
theorem concurrent_create_one_match (a b : Identity) (s0 : DBState) (L : List Bool)
    (hab : a ≠ b)
    (h1 : hasLikePair s0 a b = false) (h2 : hasLikePair s0 b a = false)
    (h3 : countPair s0 a b = 0)
    (hf1 : (runSched s0 (initCaller a b) (initCaller b a) L).2.1.pc = CallerPC.finished)
    (hf2 : (runSched s0 (initCaller a b) (initCaller b a) L).2.2.pc = CallerPC.finished) :
    countPair (runSched s0 (initCaller a b) (initCaller b a) L).1 a b = 1
    ∧ (((runSched s0 (initCaller a b) (initCaller b a) L).2.1.matched = true
        ∧ (runSched s0 (initCaller a b) (initCaller b a) L).2.2.matched = false
        ∧ (runSched s0 (initCaller a b) (initCaller b a) L).2.2.foundMatch = none)
      ∨ ((runSched s0 (initCaller a b) (initCaller b a) L).2.2.matched = true
        ∧ (runSched s0 (initCaller a b) (initCaller b a) L).2.1.matched = false
        ∧ (runSched s0 (initCaller a b) (initCaller b a) L).2.1.foundMatch = none)) := by
  have H0 : RaceInv a b s0 (initCaller a b) (initCaller b a) :=
    { user1 := rfl, target1 := rfl, user2 := rfl, target2 := rfl
      likeAbsent1 := fun _ => h1
      likePresent1 := fun h => absurd rfl h
      likeAbsent2 := fun _ => h2
      likePresent2 := fun h => absurd rfl h
      cnt := by simpa [initCaller] using h3
      cntLe := by rw [h3]; omega
      fin1 := by intro h; simp [initCaller] at h
      fin2 := by intro h; simp [initCaller] at h
      none1 := fun _ => rfl
      none2 := fun _ => rfl
      bothDone := by intro h _ _ _; simp [initCaller] at h }
  have H := raceInv_run hab L s0 (initCaller a b) (initCaller b a) H0
  cases hm1 : (runSched s0 (initCaller a b) (initCaller b a) L).2.1.matched with
  | true =>
    have hm2 : (runSched s0 (initCaller a b) (initCaller b a) L).2.2.matched = false := by
      cases hm2x : (runSched s0 (initCaller a b) (initCaller b a) L).2.2.matched
      · rfl
      · have hc := H.cnt
        have hle := H.cntLe
        rw [hm1, hm2x] at hc
        simp at hc
        omega
    have hc := H.cnt
    rw [hm1, hm2] at hc
    simp at hc
    exact ⟨hc, Or.inl ⟨rfl, hm2, H.none2 hm2⟩⟩
  | false =>
    cases hm2 : (runSched s0 (initCaller a b) (initCaller b a) L).2.2.matched with
    | true =>
      have hc := H.cnt
      rw [hm1, hm2] at hc
      simp at hc
      exact ⟨hc, Or.inr ⟨rfl, rfl, H.none1 hm1⟩⟩
    | false =>
      have hd := H.bothDone hf1 hm1 hf2 hm2
      have hc := H.cnt
      rw [hm1, hm2, hd] at hc
      simp at hc

/-- Witness for the amended C1 at the fully interleaved schedule of the two
requests for the pair "a", "b" from the empty database. -/
theorem concurrent_create_one_match_witness :
    (("a" : Identity) ≠ "b"
      ∧ hasLikePair emptyDB "a" "b" = false
      ∧ hasLikePair emptyDB "b" "a" = false
      ∧ countPair emptyDB "a" "b" = 0
      ∧ (runSched emptyDB (initCaller "a" "b") (initCaller "b" "a")
          [true, false, true, false, true, false, true, false]).2.1.pc = CallerPC.finished
      ∧ (runSched emptyDB (initCaller "a" "b") (initCaller "b" "a")
          [true, false, true, false, true, false, true, false]).2.2.pc = CallerPC.finished)
    ∧ (countPair (runSched emptyDB (initCaller "a" "b") (initCaller "b" "a")
          [true, false, true, false, true, false, true, false]).1 "a" "b" = 1
      ∧ (((runSched emptyDB (initCaller "a" "b") (initCaller "b" "a")
            [true, false, true, false, true, false, true, false]).2.1.matched = true
          ∧ (runSched emptyDB (initCaller "a" "b") (initCaller "b" "a")
            [true, false, true, false, true, false, true, false]).2.2.matched = false
          ∧ (runSched emptyDB (initCaller "a" "b") (initCaller "b" "a")
            [true, false, true, false, true, false, true, false]).2.2.foundMatch = none)
        ∨ ((runSched emptyDB (initCaller "a" "b") (initCaller "b" "a")
            [true, false, true, false, true, false, true, false]).2.2.matched = true
          ∧ (runSched emptyDB (initCaller "a" "b") (initCaller "b" "a")
            [true, false, true, false, true, false, true, false]).2.1.matched = false
          ∧ (runSched emptyDB (initCaller "a" "b") (initCaller "b" "a")
            [true, false, true, false, true, false, true, false]).2.1.foundMatch = none))) :=
  ⟨⟨by decide, by decide, by decide, by decide, by decide, by decide⟩,
    concurrent_create_one_match "a" "b" emptyDB
      [true, false, true, false, true, false, true, false]
      (by decide) (by decide) (by decide) (by decide) (by decide) (by decide)⟩

/-- Counterexample to C1 as stated: in the fully interleaved schedule both
callers race past the existence check; the first creates the match, and the
losing caller finishes with `matched = false` and no match payload — it does
not observe the pre-existing row, which the claim asserts it does. -/
theorem concurrent_create_loser_sees_nothing :
    countPair (runSched emptyDB (initCaller "a" "b") (initCaller "b" "a")
        [true, false, true, false, true, false, true, false]).1 "a" "b" = 1
    ∧ (runSched emptyDB (initCaller "a" "b") (initCaller "b" "a")
        [true, false, true, false, true, false, true, false]).2.2.pc = CallerPC.finished
    ∧ (runSched emptyDB (initCaller "a" "b") (initCaller "b" "a")
        [true, false, true, false, true, false, true, false]).2.2.matched = false
    ∧ (runSched emptyDB (initCaller "a" "b") (initCaller "b" "a")
        [true, false, true, false, true, false, true, false]).2.2.foundMatch = none := by
  refine ⟨by decide, by decide, by decide, by decide⟩
